import Mathlib

/-!
Verification development for the Filecoin-Antithesis workload driver
(stress engine + protocol fuzzer). Each Go component relevant to the
checked claims is shallowly embedded as an executable Lean definition;
RPC outcomes, signing outcomes and random draws are passed as explicit
parameters. Byte strings are `List Nat` with each element < 256.
-/

namespace Workload

/-! ## Deterministic RNG (stress-engine `rngIntn`)

Go: `func rngIntn(n int) int { if n <= 0 { return 0 }; return int(random.GetRandom() % uint64(n)) }`.
The raw random draw `r` is a parameter. -/

def rngIntn (r : Nat) (n : Nat) : Nat :=
  if n = 0 then 0 else r % n

/-! ## Raw CBOR construction (protocol-fuzzer `cbor_helpers.go`)

`wHdr` is cbor-gen's `WriteMajorTypeHeader`: major type in the top three
bits, then the shortest big-endian additional-information encoding. -/

def byteAt (v : Nat) (k : Nat) : Nat := (v >>> (8 * k)) % 256

def wHdr (maj : Nat) (v : Nat) : List Nat :=
  if v < 24 then [maj * 32 + v]
  else if v < 256 then [maj * 32 + 24, v]
  else if v < 65536 then [maj * 32 + 25, byteAt v 1, byteAt v 0]
  else if v < 4294967296 then
    [maj * 32 + 26, byteAt v 3, byteAt v 2, byteAt v 1, byteAt v 0]
  else
    [maj * 32 + 27, byteAt v 7, byteAt v 6, byteAt v 5, byteAt v 4,
     byteAt v 3, byteAt v 2, byteAt v 1, byteAt v 0]

def cborUint64 (v : Nat) : List Nat := wHdr 0 v

def cborBytes (b : List Nat) : List Nat := wHdr 2 b.length ++ b

def cborTextString (s : List Nat) : List Nat := wHdr 3 s.length ++ s

def cborArray (elements : List (List Nat)) : List Nat :=
  wHdr 4 elements.length ++ elements.flatten

def cborNil : List Nat := [0xf6]

def cborInt64 (v : Int) : List Nat :=
  if 0 ≤ v then cborUint64 v.toNat else wHdr 1 (-v - 1).toNat

/-- CID encoding: CBOR tag 42 followed by a byte string of the CID bytes
with a 0x00 multibase-identity prefix. A CID is modelled by its bytes. -/
def cborCID (c : List Nat) : List Nat :=
  wHdr 6 42 ++ cborBytes (0x00 :: c)

def cborCIDArray (cids : List (List Nat)) : List Nat :=
  cborArray (cids.map cborCID)

/-- Go `bigIntBytes`: 0 encodes to empty; otherwise a 0x00 sign byte
followed by the value's 8 big-endian bytes stripped of leading zeros
(at least one byte kept). -/
def stripLeadingZeros : List Nat → List Nat
  | [] => []
  | [b] => [b]
  | b :: rest => if b = 0 then stripLeadingZeros rest else b :: rest

def beBytes8 (v : Nat) : List Nat :=
  [byteAt v 7, byteAt v 6, byteAt v 5, byteAt v 4,
   byteAt v 3, byteAt v 2, byteAt v 1, byteAt v 0]

def bigIntBytes (v : Nat) : List Nat :=
  if v = 0 then [] else 0x00 :: stripLeadingZeros (beBytes8 v)

/-! ## ChainExchange wire-format builders -/

def buildResponseCBOR (status : Nat) (errMsg : List Nat) (chain : List (List Nat)) :
    List Nat :=
  cborArray [cborUint64 status, cborTextString errMsg,
             wHdr 4 chain.length ++ chain.flatten]

def buildBSTipSetCBOR (blocks : List (List Nat)) (messages : List Nat) : List Nat :=
  cborArray [wHdr 4 blocks.length ++ blocks.flatten, messages]

def okResponse (chain : List (List Nat)) : List Nat :=
  buildResponseCBOR 0 [] chain

/-- CompactedMessages for a 2-block tipset: empty Bls/Secpk with one
include list per block. -/
def buildMultiBlockMsgsCBOR : List Nat :=
  cborArray
    [cborArray [],
     cborArray [cborArray [], cborArray []],
     cborArray [],
     cborArray [cborArray [], cborArray []]]

/-! ## BlockHeader CBOR builder (16-field array) -/

/-- Shared CIDs that let several blocks form one tipset. -/
structure SharedBlockCIDs where
  parentCID   : List Nat
  stateRoot   : List Nat
  msgReceipts : List Nat
  messagesCID : List Nat

structure BlockHeaderOpts where
  nilTicket        : Bool := false
  nilElectionProof : Bool := false
  nilBLSAggregate  : Bool := false
  nilBlockSig      : Bool := false
  nilBeaconEntries : Bool := false
  nilParents       : Bool := false
  emptyParents     : Bool := false
  allNil           : Bool := false
  overrideCIDs     : Option SharedBlockCIDs := none
  overrideMiner    : Option (List Nat) := none

/-- The random inputs one call of `buildBlockHeaderCBOR` consumes. -/
structure HeaderRand where
  dummyCID     : List Nat
  ticketVRF    : List Nat
  epVRF        : List Nat
  blockSigData : List Nat

/-- The 16 field encodings of `buildBlockHeaderCBOR`, in order:
Miner, Ticket, ElectionProof, BeaconEntries, WinPoStProof, Parents,
ParentWeight, Height, ParentStateRoot, ParentMessageReceipts, Messages,
BLSAggregate, Timestamp, BlockSig, ForkSignaling, ParentBaseFee. -/
def blockHeaderFields (opts : BlockHeaderOpts) (rnd : HeaderRand) : List (List Nat) :=
  let dummyCID := match opts.overrideCIDs with
    | some s => s.parentCID
    | none => rnd.dummyCID
  let miner := match opts.overrideMiner with
    | some m => cborBytes m
    | none => cborBytes [0x00, 0xe8, 0x07]
  let ticket := if opts.nilTicket || opts.allNil then cborNil
    else cborArray [cborBytes rnd.ticketVRF]
  let electionProof := if opts.nilElectionProof || opts.allNil then cborNil
    else cborArray [cborInt64 1, cborBytes rnd.epVRF]
  let beaconEntries := if opts.nilBeaconEntries || opts.allNil then cborNil
    else cborArray []
  let winPoStProof := cborArray []
  let parents := if opts.nilParents || opts.allNil then cborNil
    else if opts.emptyParents then cborArray []
    else cborCIDArray [dummyCID]
  let parentWeight := cborBytes (bigIntBytes 1)
  let height := cborUint64 1
  let stateRootCID := match opts.overrideCIDs with
    | some s => s.stateRoot
    | none => dummyCID
  let parentStateRoot := cborCID stateRootCID
  let msgReceiptsCID := match opts.overrideCIDs with
    | some s => s.msgReceipts
    | none => dummyCID
  let parentMsgReceipts := cborCID msgReceiptsCID
  let messagesCID := match opts.overrideCIDs with
    | some s => s.messagesCID
    | none => dummyCID
  let messages := cborCID messagesCID
  let blsAggregate := if opts.nilBLSAggregate || opts.allNil then cborNil
    else cborArray [cborUint64 2, cborBytes []]
  let timestamp := cborUint64 1700000000
  let blockSig := if opts.nilBlockSig || opts.allNil then cborNil
    else cborArray [cborUint64 2, cborBytes rnd.blockSigData]
  let forkSignaling := cborUint64 0
  let parentBaseFee := cborBytes (bigIntBytes 100)
  [miner, ticket, electionProof, beaconEntries, winPoStProof,
   parents, parentWeight, height, parentStateRoot, parentMsgReceipts,
   messages, blsAggregate, timestamp, blockSig, forkSignaling, parentBaseFee]

def buildBlockHeaderCBOR (opts : BlockHeaderOpts) (rnd : HeaderRand) : List Nat :=
  cborArray (blockHeaderFields opts rnd)

/-! ## Multi-block tipset response mutations (R22, R23, R24)

Each takes the shared CIDs drawn by `newSharedBlockCIDs()` and the two
blocks' random inputs as parameters. -/

def minerF01000 : List Nat := [0x00, 0xe8, 0x07]

def minerF01001 : List Nat := [0x00, 0xe9, 0x07]

def r22OptsA (shared : SharedBlockCIDs) : BlockHeaderOpts :=
  { overrideCIDs := some shared, overrideMiner := some minerF01000 }

def r22OptsB (shared : SharedBlockCIDs) : BlockHeaderOpts :=
  { nilTicket := true, overrideCIDs := some shared, overrideMiner := some minerF01001 }

def respNilTicketMultiBlock (shared : SharedBlockCIDs) (rA rB : HeaderRand) : List Nat :=
  let blkA := buildBlockHeaderCBOR (r22OptsA shared) rA
  let blkB := buildBlockHeaderCBOR (r22OptsB shared) rB
  okResponse [buildBSTipSetCBOR [blkA, blkB] buildMultiBlockMsgsCBOR]

def r23OptsA (shared : SharedBlockCIDs) : BlockHeaderOpts :=
  { nilTicket := true, overrideCIDs := some shared, overrideMiner := some minerF01000 }

def r23OptsB (shared : SharedBlockCIDs) : BlockHeaderOpts :=
  { nilTicket := true, overrideCIDs := some shared, overrideMiner := some minerF01001 }

def respBothNilTickets (shared : SharedBlockCIDs) (rA rB : HeaderRand) : List Nat :=
  let blkA := buildBlockHeaderCBOR (r23OptsA shared) rA
  let blkB := buildBlockHeaderCBOR (r23OptsB shared) rB
  okResponse [buildBSTipSetCBOR [blkA, blkB] buildMultiBlockMsgsCBOR]

def r24OptsA (shared : SharedBlockCIDs) : BlockHeaderOpts :=
  { overrideCIDs := some shared, overrideMiner := some minerF01000 }

def r24OptsB (shared : SharedBlockCIDs) : BlockHeaderOpts :=
  { nilElectionProof := true, overrideCIDs := some shared, overrideMiner := some minerF01001 }

def respNilElectionProofMultiBlock (shared : SharedBlockCIDs) (rA rB : HeaderRand) :
    List Nat :=
  let blkA := buildBlockHeaderCBOR (r24OptsA shared) rA
  let blkB := buildBlockHeaderCBOR (r24OptsB shared) rB
  okResponse [buildBSTipSetCBOR [blkA, blkB] buildMultiBlockMsgsCBOR]

end Workload

namespace Workload

/-- Claim C9 helper: field projections of interest. Index 0 is Miner,
index 5 is Parents, index 7 is Height. -/
def headerField (opts : BlockHeaderOpts) (rnd : HeaderRand) (i : Nat) : Option (List Nat) :=
  (blockHeaderFields opts rnd)[i]?

end Workload

namespace Workload

/-! ## Native-message nonce pipeline (stress-engine `helpers.go`, `part_005`)

Addresses are `Nat`; the per-address counter map is a function. Signing
and mempool-push outcomes are Boolean parameters (`true` = succeeded). -/

def NonceMap : Type := Nat → Nat

/-- Go increment `nonces[sender]++`. -/
def bump (m : NonceMap) (sender : Nat) : NonceMap :=
  fun a => if a = sender then m a + 1 else m a

/-- Result of `pushMsg`: the updated counters, the nonce that was placed
into the message before signing, and the returned Bool. -/
structure PushMsgResult where
  nonces   : NonceMap
  msgNonce : Nat
  ok       : Bool

/-- Go `pushMsg`: set `msg.Nonce = nonces[msg.From]`, sign (nil → return
false), push (error → return false), then `nonces[msg.From]++` and
return true. -/
def pushMsg (nonces : NonceMap) (sender : Nat) (signOk pushOk : Bool) : PushMsgResult :=
  let n := nonces sender
  if !signOk then ⟨nonces, n, false⟩
  else if !pushOk then ⟨nonces, n, false⟩
  else ⟨bump nonces sender, n, true⟩

/-- Result of `doInvalidSignature`: counters, the nonce carried by the
corrupted message if one was pushed, and the argument of the
`invalid_signature_rejected` always-assertion if it was emitted. -/
structure InvalidSigResult where
  nonces      : NonceMap
  pushedNonce : Option Nat
  assertArg   : Option Bool

/-- Go `doInvalidSignature`: early return on self-transfer; otherwise the
message uses `nonces[fromAddr]`, carries a garbage signature, is pushed,
and `assert.Always(err != nil)` is emitted. The counter is never written,
whatever the node answered. -/
def doInvalidSignature (nonces : NonceMap) (fromAddr toAddr : Nat)
    (nodeRejects : Bool) : InvalidSigResult :=
  if fromAddr = toAddr then ⟨nonces, none, none⟩
  else ⟨nonces, some (nonces fromAddr), some nodeRejects⟩

/-! ## Concurrent conflict vectors (`part_005` doDoubleSpend / doNonceRace,
`identity.go` DoConflictingContractCalls)

Each signs two messages under the same nonce, pushes them concurrently
(outcomes `pushAerr`/`pushBerr`, `true` = the push returned an error),
joins, and bumps the sender counter once. Early returns leave the
counters untouched. -/

structure RaceResult where
  nonces : NonceMap
  /-- Argument of the `Sometimes(errA == nil || errB == nil)` assertion,
  `none` when the vector returned early. -/
  atLeastOneAccepted : Option Bool

def doDoubleSpend (nNodes : Nat) (nonces : NonceMap) (fromAddr toAddrA toAddrB : Nat)
    (signAok signBok pushAerr pushBerr : Bool) : RaceResult :=
  if nNodes < 2 then ⟨nonces, none⟩
  else if fromAddr = toAddrA ∨ fromAddr = toAddrB ∨ toAddrA = toAddrB then ⟨nonces, none⟩
  else if !signAok || !signBok then ⟨nonces, none⟩
  else ⟨bump nonces fromAddr, some (!pushAerr || !pushBerr)⟩

def doNonceRace (nNodes : Nat) (nonces : NonceMap) (fromAddr toAddr : Nat)
    (signLowOk signHighOk pushLowErr pushHighErr : Bool) : RaceResult :=
  if nNodes < 2 then ⟨nonces, none⟩
  else if fromAddr = toAddr then ⟨nonces, none⟩
  else if !signLowOk || !signHighOk then ⟨nonces, none⟩
  else ⟨bump nonces fromAddr, some (!pushLowErr || !pushHighErr)⟩

def doConflictingContractCalls (nNodes : Nat) (nonces : NonceMap)
    (contractsNonempty : Bool) (deployer toAddrA toAddrB : Nat)
    (cborAok cborBok signAok signBok pushAerr pushBerr : Bool) : RaceResult :=
  if nNodes < 2 then ⟨nonces, none⟩
  else if !contractsNonempty then ⟨nonces, none⟩
  else if toAddrA = toAddrB then ⟨nonces, none⟩
  else if !cborAok then ⟨nonces, none⟩
  else if !cborBok then ⟨nonces, none⟩
  else if !signAok || !signBok then ⟨nonces, none⟩
  else ⟨bump nonces deployer, some (!pushAerr || !pushBerr)⟩

/-! ## EVM transaction pipeline (`foc_helpers.go` sendEthTx)

The per-sender cache entry is `Option Nat`; the node's `MpoolGetNonce`
answer and every fallible stage are parameters. -/

structure EthEnv where
  keyLenOk      : Bool
  deriveOk      : Bool
  getNonceOk    : Bool
  nodeNonce     : Nat
  castOk        : Bool
  rlpUnsignedOk : Bool
  signOk        : Bool
  initSigOk     : Bool
  rlpSignedOk   : Bool
  pushOk        : Bool

structure EthResult where
  /-- The sender's `ethNonces` entry after the call. -/
  cache   : Option Nat
  ok      : Bool
  /-- The nonce carried by the transaction, once a transaction was built. -/
  txNonce : Option Nat

/-- The nonce-acquisition step: use the cached entry, else ask the node. -/
def acquiredNonce (cache : Option Nat) (e : EthEnv) : Option Nat :=
  match cache with
  | some n => some n
  | none => if e.getNonceOk then some e.nodeNonce else none

/-- Stages after the cache was set to `nonce + 1`, in source order:
CastEthAddress, build tx, ToRlpUnsignedMsg, Sign, InitialiseSignature,
ToRlpSignedMsg, EthSendRawTransaction. Only a push failure deletes the
cache entry. -/
def sendEthTxAfterNonce (nonce : Nat) (e : EthEnv) : EthResult :=
  let cache' := some (nonce + 1)
  if !e.castOk then ⟨cache', false, none⟩
  else if !e.rlpUnsignedOk then ⟨cache', false, some nonce⟩
  else if !e.signOk then ⟨cache', false, some nonce⟩
  else if !e.initSigOk then ⟨cache', false, some nonce⟩
  else if !e.rlpSignedOk then ⟨cache', false, some nonce⟩
  else if !e.pushOk then ⟨none, false, some nonce⟩
  else ⟨cache', true, some nonce⟩

/-- Go `sendEthTx`. -/
def sendEthTx (cache : Option Nat) (e : EthEnv) : EthResult :=
  if !e.keyLenOk then ⟨cache, false, none⟩
  else if !e.deriveOk then ⟨cache, false, none⟩
  else
    match acquiredNonce cache e with
    | none => ⟨cache, false, none⟩
    | some nonce => sendEthTxAfterNonce nonce e

end Workload

namespace Workload

/-! ## Chain-consistency sub-checks (`part_004` DoChainMonitor)

Per-node RPC answers are `Option` values (`none` = RPC error). The value
an `assert.Always` was called with is returned as `Option Bool`
(`none` = the check returned before reaching that assertion). Divergence
is `⟦distinct observed values⟧ ≠ 1`, matching the Go `len(map) == 1`
tests; `List.eraseDups` plays the role of the `map` keys. -/

def distinctCount (l : List Nat) : Nat := l.eraseDups.length

/-- Go `doTipsetConsensus` after the node-count / `allNodesPastEpoch` /
finalized-height guards: one `Option` tipset key per node, where `none`
covers an error in either per-node RPC. Emits
`Always(len(tipsetKeys) == 1 && errs == 0)` unless every node errored. -/
def doTipsetConsensus (allPast : Bool) (finH : Nat) (results : List (Option Nat)) :
    Option Bool :=
  if results.length < 2 then none
  else if !allPast then none
  else if finH < 5 then none
  else
    let errs := (results.filter Option.isNone).length
    if errs = results.length then none
    else some (decide (distinctCount (results.filterMap id) = 1) && decide (errs = 0))

/-- Go `doHeadComparison`: errors are skipped with `continue`; finalized
heads grouped by height; one `Always(allMatch)` per group of ≥ 2. Each
head is (height, tipset key). The Go map iteration order is immaterial
to the multiset of emitted assertions; groups are listed here in first-
appearance order. -/
def doHeadComparison (allPast : Bool) (heads : List (Option (Nat × Nat))) : List Bool :=
  if heads.length < 2 then []
  else if !allPast then []
  else if (heads.filterMap id).length < 2 then []
  else
    (((heads.filterMap id).map Prod.fst).eraseDups).filterMap fun h =>
      match (heads.filterMap id).filter (fun p => p.1 = h) with
      | [] => none
      | g0 :: rest =>
        if rest.length = 0 then none
        else some (rest.all fun p => p.2 = g0.2)

/-- Go `doStateRootComparison`: any per-node error returns before the
assertion; otherwise emits `Always(len(stateRoots) == 1)`. -/
def doStateRootComparison (allPast : Bool) (finH : Nat) (roots : List (Option Nat)) :
    Option Bool :=
  if roots.length < 2 then none
  else if !allPast then none
  else if finH < 5 then none
  else if roots.any Option.isNone then none
  else some (decide (distinctCount (roots.filterMap id) = 1))

/-- Per-node answers used by the state audit's phase 1. -/
structure AuditNodeRes where
  finOk : Bool
  tsOk  : Bool
  root  : Nat

/-- Per-block answers used by the state audit's phase 2 (two fixed nodes). -/
structure BlockPairRes where
  msgsAok : Bool
  msgsBok : Bool
  msgsA   : Nat
  msgsB   : Nat
  rcptAok : Bool
  rcptBok : Bool
  rcptA   : Nat
  rcptB   : Nat

structure AuditOutput where
  rootAssert   : Option Bool
  /-- Per surviving block: (msgsMatch, receiptsMatch, msgReceiptMatch). -/
  blockAsserts : List (Bool × Bool × Bool)

/-- Go `doStateAudit`: phase 1 aborts on any per-node error, then emits
`Always(rootsMatch)` and stops there unless the roots matched; phase 2
skips any block where either node failed either call, else emits the
three count assertions. -/
def doStateAudit (allPast : Bool) (finH : Nat) (nodes : List AuditNodeRes)
    (blocks : List BlockPairRes) : AuditOutput :=
  if nodes.length < 2 then ⟨none, []⟩
  else if !allPast then ⟨none, []⟩
  else if finH < 5 then ⟨none, []⟩
  else if nodes.any (fun nd => !nd.finOk || !nd.tsOk) then ⟨none, []⟩
  else
    let rootsMatch := decide (distinctCount (nodes.map AuditNodeRes.root) = 1)
    if !rootsMatch then ⟨some false, []⟩
    else
      ⟨some true,
       blocks.filterMap fun b =>
         if !b.msgsAok || !b.msgsBok then none
         else if !b.rcptAok || !b.rcptBok then none
         else some (decide (b.msgsA = b.msgsB), decide (b.rcptA = b.rcptB),
                    decide (b.msgsA = b.rcptA))⟩

/-! ## Reorg driver (`reorg_vectors.go`)

`DoReorgChaos` draws the cycle count and per-cycle epoch target from the
RNG; `verifyPostReorgState` is modelled over one stable RPC view per
node. -/

/-- Go draw `numCycles := rngIntn(reorgMaxCyclesPerCall) + 1` with
`reorgMaxCyclesPerCall = 10`. -/
def reorgNumCycles (r : Nat) : Nat := rngIntn r 10 + 1

/-- Go draw `blocksToWait := rngIntn(3) + 1`. -/
def reorgBlocksToWait (r : Nat) : Nat := rngIntn r 3 + 1

/-- Value of `reorgConvergeWait` in seconds (fixed). -/
def reorgConvergeWaitSeconds : Nat := 90

/-- One node's RPC answers during `verifyPostReorgState`. -/
structure NodeView where
  netPeersOk : Bool
  peerCount  : Nat
  finOk      : Bool
  finHeight  : Nat
  /-- Whether `ChainGetTipSetByHeight` succeeded at the check height. -/
  tsOk       : Bool
  stateRoot  : Nat
  headOk     : Bool
  headHeight : Nat

def minList : List Nat → Nat
  | [] => 0
  | h :: t => t.foldl Nat.min h

def maxList : List Nat → Nat
  | [] => 0
  | h :: t => t.foldl Nat.max h

def listSpread (l : List Nat) : Nat := maxList l - minList l

/-- Go `getFinalizedHeight`: 0 as soon as any node's
`ChainGetFinalizedTipSet` fails, else the minimum finalized height. -/
def getFinalizedHeight (vs : List NodeView) : Nat :=
  if vs.any (fun v => !v.finOk) then 0
  else minList (vs.map NodeView.finHeight)

structure VerifyResult where
  /-- Arguments of `post_reorg_network_healed`, one per node whose
  `NetPeers` answered (errors are skipped with `continue`). -/
  peerAsserts : List Bool
  checkHeight : Option Nat
  /-- Argument of `post_reorg_state_consistent`. -/
  stateAssert : Option Bool
  /-- Argument of `post_reorg_height_spread_ok`. -/
  spreadAssert : Option Bool

/-- Go `verifyPostReorgState`, with the random draw `r` feeding
`rngIntn(int(finalizedHeight))`. The spread check reads each node's LIVE
`ChainHead` height (skipping errors), not its finalized height. -/
def verifyPostReorgState (r : Nat) (vs : List NodeView) : VerifyResult :=
  let peerAsserts := vs.filterMap fun v =>
    if v.netPeersOk then some (decide (0 < v.peerCount)) else none
  let finalizedHeight := getFinalizedHeight vs
  if finalizedHeight < 5 then ⟨peerAsserts, none, none, none⟩
  else
    let checkHeight := rngIntn r finalizedHeight + 1
    if vs.any (fun v => !v.finOk || !v.tsOk) then
      ⟨peerAsserts, some checkHeight, none, none⟩
    else
      let statesMatch := decide (distinctCount (vs.map NodeView.stateRoot) = 1)
      let heights := vs.filterMap fun v =>
        if v.headOk then some v.headHeight else none
      if heights.length < 2 then ⟨peerAsserts, some checkHeight, some statesMatch, none⟩
      else
        ⟨peerAsserts, some checkHeight, some statesMatch,
         some (decide (listSpread heights ≤ 10))⟩

/-! ## Deck building (stress-engine `buildDeck`, fuzzer `buildDeck`)

Action/attack names are `Nat` identifiers; weights come from `envInt`
and may be negative, hence `Int`. `Int.toNat` of a non-positive weight
is 0 copies, matching the Go `for i := 0; i < w; i++` loop. -/

/-- Stress engine: one deck entry name repeated `W` times per action. -/
def stressDeck (actions : List (Nat × Int)) : List Nat :=
  (actions.map fun a => List.replicate a.2.toNat a.1).flatten

/-- Fuzzer: the whole category's attack list appended `W` times, skipped
when `W <= 0` or the category is empty. -/
def fuzzerDeck (cats : List (Int × List Nat)) : List Nat :=
  (cats.map fun c =>
    if c.1 ≤ 0 ∨ c.2.isEmpty then ([] : List Nat)
    else (List.replicate c.1.toNat c.2).flatten).flatten

/-- Both executables `log.Fatal` when the built deck is empty; `none`
models the fatal exit before the main loop is entered. -/
def checkDeck (deck : List Nat) : Option (List Nat) :=
  if deck.isEmpty then none else some deck

/-! ## Main-loop iteration shapes (stress-engine `main`, fuzzer `main`)

One iteration is abstracted to its externally visible effect trace.
Per-attack log lines and the fuzzer's target draw are omitted; the
periodic count summary and the sleep are kept. -/

inductive Effect where
  | pick (idx : Nat)
  | execute (name : Nat)
  | logSummary (iteration : Nat)
  | sleep (ms : Nat)
deriving DecidableEq

def Effect.isSleep : Effect → Bool
  | .sleep _ => true
  | _ => false

def hasSleep (es : List Effect) : Bool := es.any Effect.isSleep

/-- Stress-engine iteration: pick uniformly, execute, log the counts
every 500 iterations. There is no sleep. -/
def stressIteration (r : Nat) (deck : List Nat) (iteration : Nat) : List Effect :=
  let idx := rngIntn r deck.length
  [.pick idx, .execute (deck.getD idx 0)]
    ++ (if (iteration + 1) % 500 = 0 then [.logSummary (iteration + 1)] else [])

/-- Fuzzer iteration: pick uniformly, execute, log the counts every 100
iterations, then sleep for `FUZZER_RATE_MS`. -/
def fuzzerIteration (r : Nat) (deck : List Nat) (iteration : Nat) (rateMs : Nat) :
    List Effect :=
  let idx := rngIntn r deck.length
  [.pick idx, .execute (deck.getD idx 0)]
    ++ (if (iteration + 1) % 100 = 0 then [.logSummary (iteration + 1)] else [])
    ++ [.sleep rateMs]

/-! ## Token-layer deposit vector (`foc_lifecycle.go` DoFocDeposit)

Account funds are `Int` (uint256 values read back from `eth_call`). The
result is the argument of the
`Always(deposited)` assertion, `none` when either transaction failed and
the vector returned before asserting. -/

def doFocDeposit (fundsBefore fundsAfter amount : Int)
    (approveOk depositOk : Bool) : Option Bool :=
  if !approveOk then none
  else if !depositOk then none
  else some (decide (fundsAfter - fundsBefore = amount))

end Workload

namespace Workload

/-- Claim C2: through the single-push path (`pushMsg`) the message nonce
equals the sender's counter at signing time, the counter is bumped
exactly when the push succeeded (unchanged on signing or push failure),
and the invalid-signature vector never writes the counter whether the
node rejected or accepted the corrupted message. -/
theorem pushMsg_nonce_discipline :
    ∀ (nonces : NonceMap) (sender a fromAddr toAddr : Nat)
      (signOk pushOk nodeRejects : Bool),
      (pushMsg nonces sender signOk pushOk).msgNonce = nonces sender ∧
      (pushMsg nonces sender signOk pushOk).ok = (signOk && pushOk) ∧
      (pushMsg nonces sender signOk pushOk).nonces a =
        (if a = sender ∧ signOk = true ∧ pushOk = true then nonces a + 1 else nonces a) ∧
      (doInvalidSignature nonces fromAddr toAddr nodeRejects).nonces a = nonces a ∧
      (doInvalidSignature nonces fromAddr toAddr nodeRejects).pushedNonce =
        (if fromAddr = toAddr then none else some (nonces fromAddr)) ∧
      (doInvalidSignature nonces fromAddr toAddr nodeRejects).assertArg =
        (if fromAddr = toAddr then none else some nodeRejects) := by
  intro nonces sender a fromAddr toAddr signOk pushOk nodeRejects
  cases signOk <;> cases pushOk <;>
    by_cases hft : fromAddr = toAddr <;>
      by_cases has : a = sender <;>
        simp [pushMsg, doInvalidSignature, bump, hft, has]

/-- Claim C3: each concurrent conflict vector (double-spend race, nonce
race, conflicting contract calls), once both conflicting messages signed
successfully, advances the sender's counter by exactly one after the two
concurrent pushes are joined, for every combination of push outcomes,
and leaves every other address untouched. -/
theorem concurrentConflict_nonce_once :
    ∀ (nonces : NonceMap) (nNodes fromAddr toAddrA toAddrB deployer a : Nat)
      (pushAerr pushBerr : Bool),
      2 ≤ nNodes → fromAddr ≠ toAddrA → fromAddr ≠ toAddrB → toAddrA ≠ toAddrB →
      ((doDoubleSpend nNodes nonces fromAddr toAddrA toAddrB true true
          pushAerr pushBerr).nonces a =
        (if a = fromAddr then nonces a + 1 else nonces a)) ∧
      ((doDoubleSpend nNodes nonces fromAddr toAddrA toAddrB true true
          pushAerr pushBerr).atLeastOneAccepted = some (!pushAerr || !pushBerr)) ∧
      ((doNonceRace nNodes nonces fromAddr toAddrA true true
          pushAerr pushBerr).nonces a =
        (if a = fromAddr then nonces a + 1 else nonces a)) ∧
      ((doNonceRace nNodes nonces fromAddr toAddrA true true
          pushAerr pushBerr).atLeastOneAccepted = some (!pushAerr || !pushBerr)) ∧
      ((doConflictingContractCalls nNodes nonces true deployer toAddrA toAddrB
          true true true true pushAerr pushBerr).nonces a =
        (if a = deployer then nonces a + 1 else nonces a)) ∧
      ((doConflictingContractCalls nNodes nonces true deployer toAddrA toAddrB
          true true true true pushAerr pushBerr).atLeastOneAccepted =
        some (!pushAerr || !pushBerr)) := by
  intro nonces nNodes fromAddr toAddrA toAddrB deployer a pushAerr pushBerr
  intro h2 hfa hfb hab
  have hlt : ¬ nNodes < 2 := not_lt.mpr h2
  refine ⟨?_, ?_, ?_, ?_, ?_, ?_⟩ <;>
    simp [doDoubleSpend, doNonceRace, doConflictingContractCalls, bump,
      hlt, hfa, hfb, hab]

/-- Witness for C3. -/
theorem concurrentConflict_nonce_once_witness :
    2 ≤ 2 ∧ (0 : Nat) ≠ 1 ∧ (0 : Nat) ≠ 2 ∧ (1 : Nat) ≠ 2 ∧
    (((doDoubleSpend 2 (fun _ => 5) 0 1 2 true true true true).nonces 0 =
        (if 0 = 0 then (fun _ => (5 : Nat)) 0 + 1 else (fun _ => (5 : Nat)) 0)) ∧
      ((doDoubleSpend 2 (fun _ => 5) 0 1 2 true true true true).atLeastOneAccepted =
        some (!true || !true)) ∧
      ((doNonceRace 2 (fun _ => 5) 0 1 true true true true).nonces 0 =
        (if 0 = 0 then (fun _ => (5 : Nat)) 0 + 1 else (fun _ => (5 : Nat)) 0)) ∧
      ((doNonceRace 2 (fun _ => 5) 0 1 true true true true).atLeastOneAccepted =
        some (!true || !true)) ∧
      ((doConflictingContractCalls 2 (fun _ => 5) true 3 1 2
          true true true true true true).nonces 0 =
        (if 0 = 3 then (fun _ => (5 : Nat)) 0 + 1 else (fun _ => (5 : Nat)) 0)) ∧
      ((doConflictingContractCalls 2 (fun _ => 5) true 3 1 2
          true true true true true true).atLeastOneAccepted =
        some (!true || !true))) :=
  ⟨by decide, by decide, by decide, by decide,
   concurrentConflict_nonce_once (fun _ => 5) 2 0 1 2 3 0 true true
     (by decide) (by decide) (by decide) (by decide)⟩

/-- Claim C4: in `sendEthTx`, once the nonce was acquired and every
pre-push stage succeeds, a push failure deletes the sender's cached
nonce entry (so the next acquisition re-fetches `MpoolGetNonce` from the
node) while a push success leaves the cache at the successor of the
nonce just used (so the next acquisition hits the cache). -/
theorem sendEthTx_push_outcome_cache :
    ∀ (cache : Option Nat) (e : EthEnv) (n : Nat) (e2 : EthEnv),
      e.keyLenOk = true → e.deriveOk = true →
      acquiredNonce cache e = some n →
      e.castOk = true → e.rlpUnsignedOk = true → e.signOk = true →
      e.initSigOk = true → e.rlpSignedOk = true →
      (sendEthTx cache e).txNonce = some n ∧
      (sendEthTx cache e).ok = e.pushOk ∧
      (sendEthTx cache e).cache = (if e.pushOk then some (n + 1) else none) ∧
      acquiredNonce (sendEthTx cache e).cache e2 =
        (if e.pushOk then some (n + 1)
         else if e2.getNonceOk then some e2.nodeNonce else none) := by
  intro cache e n e2 hk hd hacq hc hru hs hi hrs
  have hsend : sendEthTx cache e = sendEthTxAfterNonce n e := by
    simp [sendEthTx, hk, hd, hacq]
  rw [hsend]
  cases hp : e.pushOk <;>
    simp [sendEthTxAfterNonce, acquiredNonce, hc, hru, hs, hi, hrs, hp]

/-- Witness for C4. -/
theorem sendEthTx_push_outcome_cache_witness :
    (⟨true, true, true, 9, true, true, true, true, true, false⟩ : EthEnv).keyLenOk = true ∧
    acquiredNonce (some 4) ⟨true, true, true, 9, true, true, true, true, true, false⟩ =
      some 4 ∧
    ((sendEthTx (some 4) ⟨true, true, true, 9, true, true, true, true, true, false⟩).txNonce =
        some 4 ∧
      (sendEthTx (some 4) ⟨true, true, true, 9, true, true, true, true, true, false⟩).ok =
        (⟨true, true, true, 9, true, true, true, true, true, false⟩ : EthEnv).pushOk ∧
      (sendEthTx (some 4) ⟨true, true, true, 9, true, true, true, true, true, false⟩).cache =
        (if (⟨true, true, true, 9, true, true, true, true, true, false⟩ : EthEnv).pushOk
         then some (4 + 1) else none) ∧
      acquiredNonce
          (sendEthTx (some 4)
            ⟨true, true, true, 9, true, true, true, true, true, false⟩).cache
          ⟨true, true, true, 7, true, true, true, true, true, true⟩ =
        (if (⟨true, true, true, 9, true, true, true, true, true, false⟩ : EthEnv).pushOk
         then some (4 + 1)
         else if (⟨true, true, true, 7, true, true, true, true, true, true⟩ : EthEnv).getNonceOk
         then some (⟨true, true, true, 7, true, true, true, true, true, true⟩ : EthEnv).nodeNonce
         else none)) :=
  ⟨rfl, rfl,
   sendEthTx_push_outcome_cache (some 4)
     ⟨true, true, true, 9, true, true, true, true, true, false⟩ 4
     ⟨true, true, true, 7, true, true, true, true, true, true⟩
     rfl rfl rfl rfl rfl rfl rfl rfl⟩

/-- Claim C5: if `sendEthTx` fails after nonce acquisition but before
the mempool push (address cast, RLP serialisation, signing, or
signature-initialisation failure), the cached entry stays at the
incremented value `n + 1` and is not invalidated, so the next call for
that sender acquires `n + 1` — one greater than the last nonce actually
submitted to a node. -/
theorem sendEthTx_prepush_failure_keeps_increment :
    ∀ (cache : Option Nat) (e : EthEnv) (n : Nat) (e2 : EthEnv),
      e.keyLenOk = true → e.deriveOk = true →
      acquiredNonce cache e = some n →
      (e.castOk && e.rlpUnsignedOk && e.signOk && e.initSigOk && e.rlpSignedOk) = false →
      (sendEthTx cache e).ok = false ∧
      (sendEthTx cache e).cache = some (n + 1) ∧
      acquiredNonce (sendEthTx cache e).cache e2 = some (n + 1) := by
  intro cache e n e2 hk hd hacq hfail
  have hsend : sendEthTx cache e = sendEthTxAfterNonce n e := by
    simp [sendEthTx, hk, hd, hacq]
  rw [hsend]
  cases hc : e.castOk <;> cases hru : e.rlpUnsignedOk <;> cases hs : e.signOk <;>
    cases hi : e.initSigOk <;> cases hrs : e.rlpSignedOk <;>
      simp_all [sendEthTxAfterNonce, acquiredNonce]

/-- Witness for C5 (signing failure). -/
theorem sendEthTx_prepush_failure_keeps_increment_witness :
    acquiredNonce (some 4) ⟨true, true, true, 9, true, true, false, true, true, true⟩ =
      some 4 ∧
    ((⟨true, true, true, 9, true, true, false, true, true, true⟩ : EthEnv).castOk &&
      (⟨true, true, true, 9, true, true, false, true, true, true⟩ : EthEnv).rlpUnsignedOk &&
      (⟨true, true, true, 9, true, true, false, true, true, true⟩ : EthEnv).signOk &&
      (⟨true, true, true, 9, true, true, false, true, true, true⟩ : EthEnv).initSigOk &&
      (⟨true, true, true, 9, true, true, false, true, true, true⟩ : EthEnv).rlpSignedOk) =
      false ∧
    ((sendEthTx (some 4) ⟨true, true, true, 9, true, true, false, true, true, true⟩).ok =
        false ∧
      (sendEthTx (some 4) ⟨true, true, true, 9, true, true, false, true, true, true⟩).cache =
        some (4 + 1) ∧
      acquiredNonce
          (sendEthTx (some 4)
            ⟨true, true, true, 9, true, true, false, true, true, true⟩).cache
          ⟨true, true, true, 7, true, true, true, true, true, true⟩ = some (4 + 1)) :=
  ⟨rfl, rfl,
   sendEthTx_prepush_failure_keeps_increment (some 4)
     ⟨true, true, true, 9, true, true, false, true, true, true⟩ 4
     ⟨true, true, true, 7, true, true, true, true, true, true⟩
     rfl rfl rfl rfl⟩

/-- Claim C10: the deposit vector emits its always-assertion exactly when
both the approve and the deposit pushes succeeded, and the assertion
argument is true exactly when the account-funds view increased by
exactly the deposited amount. -/
theorem focDeposit_assertion_iff_exact_increase :
    ∀ (fundsBefore fundsAfter amount : Int) (approveOk depositOk : Bool),
      (doFocDeposit fundsBefore fundsAfter amount approveOk depositOk = some true ↔
        approveOk = true ∧ depositOk = true ∧ fundsAfter - fundsBefore = amount) ∧
      (doFocDeposit fundsBefore fundsAfter amount approveOk depositOk).isSome =
        (approveOk && depositOk) := by
  intro fundsBefore fundsAfter amount approveOk depositOk
  cases approveOk <;> cases depositOk <;>
    by_cases h : fundsAfter - fundsBefore = amount <;>
      simp [doFocDeposit, h]

end Workload

namespace Workload

/-- Claim C9: in each multi-block response mutation (R22, R23, R24) the
two encoded block headers carry the identical Parents CID array (the
shared parent CID) and the identical Height field, and distinct miner
addresses (f01000 vs f01001), and the response is exactly the OK
envelope around the one tipset holding those two headers. -/
theorem multiblock_mutations_share_parents_height :
    ∀ (shared : SharedBlockCIDs) (rA rB : HeaderRand),
      (headerField (r22OptsA shared) rA 5 = some (cborCIDArray [shared.parentCID]) ∧
       headerField (r22OptsB shared) rB 5 = some (cborCIDArray [shared.parentCID]) ∧
       headerField (r22OptsA shared) rA 7 = some (cborUint64 1) ∧
       headerField (r22OptsB shared) rB 7 = some (cborUint64 1) ∧
       headerField (r22OptsA shared) rA 0 = some (cborBytes minerF01000) ∧
       headerField (r22OptsB shared) rB 0 = some (cborBytes minerF01001) ∧
       respNilTicketMultiBlock shared rA rB =
         okResponse [buildBSTipSetCBOR
           [buildBlockHeaderCBOR (r22OptsA shared) rA,
            buildBlockHeaderCBOR (r22OptsB shared) rB] buildMultiBlockMsgsCBOR]) ∧
      (headerField (r23OptsA shared) rA 5 = some (cborCIDArray [shared.parentCID]) ∧
       headerField (r23OptsB shared) rB 5 = some (cborCIDArray [shared.parentCID]) ∧
       headerField (r23OptsA shared) rA 7 = some (cborUint64 1) ∧
       headerField (r23OptsB shared) rB 7 = some (cborUint64 1) ∧
       headerField (r23OptsA shared) rA 0 = some (cborBytes minerF01000) ∧
       headerField (r23OptsB shared) rB 0 = some (cborBytes minerF01001) ∧
       respBothNilTickets shared rA rB =
         okResponse [buildBSTipSetCBOR
           [buildBlockHeaderCBOR (r23OptsA shared) rA,
            buildBlockHeaderCBOR (r23OptsB shared) rB] buildMultiBlockMsgsCBOR]) ∧
      (headerField (r24OptsA shared) rA 5 = some (cborCIDArray [shared.parentCID]) ∧
       headerField (r24OptsB shared) rB 5 = some (cborCIDArray [shared.parentCID]) ∧
       headerField (r24OptsA shared) rA 7 = some (cborUint64 1) ∧
       headerField (r24OptsB shared) rB 7 = some (cborUint64 1) ∧
       headerField (r24OptsA shared) rA 0 = some (cborBytes minerF01000) ∧
       headerField (r24OptsB shared) rB 0 = some (cborBytes minerF01001) ∧
       respNilElectionProofMultiBlock shared rA rB =
         okResponse [buildBSTipSetCBOR
           [buildBlockHeaderCBOR (r24OptsA shared) rA,
            buildBlockHeaderCBOR (r24OptsB shared) rB] buildMultiBlockMsgsCBOR]) ∧
      cborBytes minerF01000 ≠ cborBytes minerF01001 := by
  intro shared rA rB
  refine ⟨⟨rfl, rfl, rfl, rfl, rfl, rfl, rfl⟩,
          ⟨rfl, rfl, rfl, rfl, rfl, rfl, rfl⟩,
          ⟨rfl, rfl, rfl, rfl, rfl, rfl, rfl⟩, by decide⟩

/-- Claim C8 counterexample: one stress-engine main-loop iteration
produces no sleep effect at all, while one fuzzer iteration does — the
two loops do not share the claimed pick→execute→sleep shape. -/
theorem stress_loop_has_no_sleep :
    hasSleep (stressIteration 0 [5] 0) = false ∧
    hasSleep (fuzzerIteration 0 [5] 0 500) = true := by
  decide

/-- Claim C8 as amended: both loops pick uniformly over the expanded
deck and execute the picked action, and log the per-name counts at
their fixed intervals (500 for the stress engine, 100 for the fuzzer);
only the fuzzer then sleeps for the configured rate, as its final
effect — the stress engine proceeds immediately to the next pick. -/
theorem main_loop_shapes :
    ∀ (r it rate : Nat) (deck : List Nat),
      deck ≠ [] →
      (stressIteration r deck it).head? = some (.pick (r % deck.length)) ∧
      (fuzzerIteration r deck it rate).head? = some (.pick (r % deck.length)) ∧
      r % deck.length < deck.length ∧
      Effect.execute (deck.getD (r % deck.length) 0) ∈ stressIteration r deck it ∧
      Effect.execute (deck.getD (r % deck.length) 0) ∈ fuzzerIteration r deck it rate ∧
      hasSleep (stressIteration r deck it) = false ∧
      (fuzzerIteration r deck it rate).getLast? = some (.sleep rate) ∧
      (Effect.logSummary (it + 1) ∈ stressIteration r deck it ↔ (it + 1) % 500 = 0) ∧
      (Effect.logSummary (it + 1) ∈ fuzzerIteration r deck it rate ↔ (it + 1) % 100 = 0) := by
  intro r it rate deck hne
  have hlen : deck.length ≠ 0 := fun h => hne (List.length_eq_zero.mp h)
  have hrng : rngIntn r deck.length = r % deck.length := by
    simp [rngIntn, hlen]
  have hmod : r % deck.length < deck.length := Nat.mod_lt _ (Nat.pos_of_ne_zero hlen)
  refine ⟨?_, ?_, hmod, ?_, ?_, ?_, ?_, ?_, ?_⟩ <;>
    by_cases h5 : (it + 1) % 500 = 0 <;>
      by_cases h1 : (it + 1) % 100 = 0 <;>
        simp [stressIteration, fuzzerIteration, hasSleep, Effect.isSleep, hrng, h5, h1,
          List.getLast?_concat]

/-- Witness for C8 as amended. -/
theorem main_loop_shapes_witness :
    ([7] : List Nat) ≠ [] ∧
    ((stressIteration 3 [7] 0).head? = some (.pick (3 % ([7] : List Nat).length)) ∧
      (fuzzerIteration 3 [7] 0 250).head? = some (.pick (3 % ([7] : List Nat).length)) ∧
      3 % ([7] : List Nat).length < ([7] : List Nat).length ∧
      Effect.execute (([7] : List Nat).getD (3 % ([7] : List Nat).length) 0) ∈
        stressIteration 3 [7] 0 ∧
      Effect.execute (([7] : List Nat).getD (3 % ([7] : List Nat).length) 0) ∈
        fuzzerIteration 3 [7] 0 250 ∧
      hasSleep (stressIteration 3 [7] 0) = false ∧
      (fuzzerIteration 3 [7] 0 250).getLast? = some (.sleep 250) ∧
      (Effect.logSummary (0 + 1) ∈ stressIteration 3 [7] 0 ↔ (0 + 1) % 500 = 0) ∧
      (Effect.logSummary (0 + 1) ∈ fuzzerIteration 3 [7] 0 250 ↔ (0 + 1) % 100 = 0)) :=
  ⟨by decide, main_loop_shapes 3 0 250 [7] (by decide)⟩

end Workload

namespace Workload

/-- Claim C6 counterexample: with two nodes whose finalized heights are
both 10 (finalized spread 0 ≤ 10) but whose live chain-head heights are
10 and 30, the post-reorg verification emits a FAILING spread assertion
— the code asserts the spread of `ChainHead` heights, not the spread of
finalized heights the claim describes. -/
theorem verifyPostReorg_spread_uses_head_heights :
    (verifyPostReorgState 0
      [⟨true, 1, true, 10, true, 7, true, 10⟩,
       ⟨true, 1, true, 10, true, 7, true, 30⟩]).spreadAssert = some false ∧
    listSpread
      (([⟨true, 1, true, 10, true, 7, true, 10⟩,
         ⟨true, 1, true, 10, true, 7, true, 30⟩] : List NodeView).map
        NodeView.finHeight) = 0 ∧
    (verifyPostReorgState 0
      [⟨true, 1, true, 10, true, 7, true, 10⟩,
       ⟨true, 1, true, 10, true, 7, true, 30⟩]).stateAssert = some true := by
  decide

/-- Claim C6 as amended: the reorg driver draws K uniformly in [1,10]
cycles and 1..3 epochs to wait per cycle; after the fixed convergence
window the post-verification asserts, per node whose `NetPeers` call
answered, that it has at least one peer; asserts state-root agreement
at a random height in [1, minimum finalized height]; and asserts that
the spread of the LIVE chain-head heights (not finalized heights)
across answering nodes is at most 10 epochs. -/
theorem reorgChaos_post_verification :
    ∀ (r r2 r3 : Nat) (vs : List NodeView),
      5 ≤ getFinalizedHeight vs →
      vs.all (fun v => v.finOk && v.tsOk) = true →
      2 ≤ (vs.filterMap fun v =>
            if v.headOk then some v.headHeight else none).length →
      (1 ≤ reorgNumCycles r ∧ reorgNumCycles r ≤ 10) ∧
      (1 ≤ reorgBlocksToWait r2 ∧ reorgBlocksToWait r2 ≤ 3) ∧
      reorgConvergeWaitSeconds = 90 ∧
      (verifyPostReorgState r3 vs).peerAsserts =
        (vs.filterMap fun v =>
          if v.netPeersOk then some (decide (0 < v.peerCount)) else none) ∧
      (verifyPostReorgState r3 vs).checkHeight =
        some (r3 % getFinalizedHeight vs + 1) ∧
      1 ≤ r3 % getFinalizedHeight vs + 1 ∧
      r3 % getFinalizedHeight vs + 1 ≤ getFinalizedHeight vs ∧
      (verifyPostReorgState r3 vs).stateAssert =
        some (decide (distinctCount (vs.map NodeView.stateRoot) = 1)) ∧
      (verifyPostReorgState r3 vs).spreadAssert =
        some (decide (listSpread (vs.filterMap fun v =>
          if v.headOk then some v.headHeight else none) ≤ 10)) := by
  intro r r2 r3 vs hfin hall hheads
  have hfinpos : 0 < getFinalizedHeight vs := by omega
  have hcycles : 1 ≤ reorgNumCycles r ∧ reorgNumCycles r ≤ 10 := by
    have : r % 10 < 10 := Nat.mod_lt _ (by norm_num)
    constructor <;> simp only [reorgNumCycles, rngIntn, if_neg (by omega : ¬ (10 : Nat) = 0)] <;>
      omega
  have hwait : 1 ≤ reorgBlocksToWait r2 ∧ reorgBlocksToWait r2 ≤ 3 := by
    have : r2 % 3 < 3 := Nat.mod_lt _ (by norm_num)
    constructor <;> simp only [reorgBlocksToWait, rngIntn, if_neg (by omega : ¬ (3 : Nat) = 0)] <;>
      omega
  have hany : vs.any (fun v => !v.finOk || !v.tsOk) = false := by
    rw [Bool.eq_false_iff]
    intro hc
    obtain ⟨v, hv, hvp⟩ := List.any_eq_true.mp hc
    have := List.all_eq_true.mp hall v hv
    cases hvf : v.finOk <;> cases hvt : v.tsOk <;> simp_all
  have hnotlt : ¬ getFinalizedHeight vs < 5 := by omega
  have hnotlen : ¬ (vs.filterMap fun v =>
      if v.headOk then some v.headHeight else none).length < 2 := by omega
  have hrng : rngIntn r3 (getFinalizedHeight vs) = r3 % getFinalizedHeight vs := by
    simp [rngIntn, Nat.pos_iff_ne_zero.mp hfinpos]
  have hmod : r3 % getFinalizedHeight vs < getFinalizedHeight vs :=
    Nat.mod_lt _ hfinpos
  refine ⟨hcycles, hwait, rfl, ?_, ?_, by omega, by omega, ?_, ?_⟩ <;>
    simp [verifyPostReorgState, hnotlt, hany, hnotlen, hrng]

/-- Witness views for the C6 amended theorem. -/
def reorgWitnessViews : List NodeView :=
  [⟨true, 2, true, 6, true, 3, true, 6⟩,
   ⟨true, 1, true, 7, true, 3, true, 7⟩]

/-- Witness for C6 as amended. -/
theorem reorgChaos_post_verification_witness :
    5 ≤ getFinalizedHeight reorgWitnessViews ∧
    reorgWitnessViews.all (fun v => v.finOk && v.tsOk) = true ∧
    2 ≤ (reorgWitnessViews.filterMap fun v =>
          if v.headOk then some v.headHeight else none).length ∧
    ((1 ≤ reorgNumCycles 4 ∧ reorgNumCycles 4 ≤ 10) ∧
      (1 ≤ reorgBlocksToWait 4 ∧ reorgBlocksToWait 4 ≤ 3) ∧
      reorgConvergeWaitSeconds = 90 ∧
      (verifyPostReorgState 4 reorgWitnessViews).peerAsserts =
        (reorgWitnessViews.filterMap fun v =>
          if v.netPeersOk then some (decide (0 < v.peerCount)) else none) ∧
      (verifyPostReorgState 4 reorgWitnessViews).checkHeight =
        some (4 % getFinalizedHeight reorgWitnessViews + 1) ∧
      1 ≤ 4 % getFinalizedHeight reorgWitnessViews + 1 ∧
      4 % getFinalizedHeight reorgWitnessViews + 1 ≤
        getFinalizedHeight reorgWitnessViews ∧
      (verifyPostReorgState 4 reorgWitnessViews).stateAssert =
        some (decide (distinctCount
          (reorgWitnessViews.map NodeView.stateRoot) = 1)) ∧
      (verifyPostReorgState 4 reorgWitnessViews).spreadAssert =
        some (decide (listSpread (reorgWitnessViews.filterMap fun v =>
          if v.headOk then some v.headHeight else none) ≤ 10))) :=
  ⟨by decide, by decide, by decide,
   reorgChaos_post_verification 4 4 4 reorgWitnessViews
     (by decide) (by decide) (by decide)⟩

end Workload

namespace Workload

/-- Every entry of the error filter surviving equals the whole list iff
every entry is an error. -/
theorem filter_isNone_length_eq_iff (l : List (Option Nat)) :
    ((l.filter Option.isNone).length = l.length) ↔ l.all Option.isNone = true := by
  induction l with
  | nil => simp
  | cons h t ih =>
    cases h with
    | none => simp [List.filter_cons, ih]
    | some x =>
      have hle := List.length_filter_le Option.isNone t
      simp [List.filter_cons]
      omega

/-- A failing head-comparison assertion always exhibits two
successfully-answering nodes at the same height with different keys. -/
theorem headComparison_false_implies_disagreement (allPast : Bool)
    (heads : List (Option (Nat × Nat)))
    (hb : false ∈ doHeadComparison allPast heads) :
    ∃ p q : Nat × Nat, p ∈ heads.filterMap id ∧ q ∈ heads.filterMap id ∧
      p.1 = q.1 ∧ p.2 ≠ q.2 := by
  rw [doHeadComparison] at hb
  by_cases h1 : heads.length < 2
  · rw [if_pos h1] at hb; cases hb
  rw [if_neg h1] at hb
  by_cases h2 : (!allPast) = true
  · rw [if_pos h2] at hb; cases hb
  rw [if_neg h2] at hb
  by_cases h3 : (heads.filterMap id).length < 2
  · rw [if_pos h3] at hb; cases hb
  rw [if_neg h3] at hb
  obtain ⟨h, _, hf⟩ := List.mem_filterMap.mp hb
  cases hfil : (heads.filterMap id).filter (fun q => q.1 = h) with
  | nil => rw [hfil] at hf; cases hf
  | cons g0 rest =>
    rw [hfil] at hf
    have hf2 : (if rest.length = 0 then none
        else some (rest.all fun p => decide (p.2 = g0.2))) = some false := hf
    by_cases hr : rest.length = 0
    · rw [if_pos hr] at hf2; cases hf2
    rw [if_neg hr] at hf2
    have hallf : rest.all (fun q => q.2 = g0.2) = false := Option.some.inj hf2
    have hex : ∃ p ∈ rest, ¬ ((fun q => decide (q.2 = g0.2)) p = true) := by
      by_contra hcon
      push_neg at hcon
      have : rest.all (fun q => q.2 = g0.2) = true := List.all_eq_true.mpr hcon
      rw [this] at hallf
      cases hallf
    obtain ⟨p, hpmem, hpne⟩ := hex
    have hpne2 : p.2 ≠ g0.2 := by simpa using hpne
    have hg0 : g0 ∈ (heads.filterMap id).filter (fun q => q.1 = h) := by
      rw [hfil]; exact List.mem_cons_self _ _
    have hpf : p ∈ (heads.filterMap id).filter (fun q => q.1 = h) := by
      rw [hfil]; exact List.mem_cons_of_mem _ hpmem
    obtain ⟨hg0m, hg0p⟩ := List.mem_filter.mp hg0
    obtain ⟨hpm, hpp⟩ := List.mem_filter.mp hpf
    refine ⟨g0, p, hg0m, hpm, ?_, ?_⟩
    · have e1 : g0.1 = h := by simpa using hg0p
      have e2 : p.1 = h := by simpa using hpp
      rw [e1, e2]
    · intro he
      exact hpne2 he.symm

/-- Claim C1 counterexample: in `doTipsetConsensus`, when one node out
of three returns an RPC error while the two answering nodes agree on
the tipset, the check does NOT abort — it emits an always-assertion
whose argument is `false` (because `consensusReached` requires
`errs == 0`), i.e. a failing divergence assertion produced although
not every node answered. -/
theorem tipsetConsensus_partial_error_asserts_false :
    doTipsetConsensus true 10 [none, some 0, some 0] = some false ∧
    distinctCount (([none, some 0, some 0] : List (Option Nat)).filterMap id) = 1 := by
  decide

/-- Claim C1 as amended: the state-root comparison and the state audit
abort without any divergence assertion as soon as any node errors; a
failing head-comparison assertion can only arise from two nodes that
both answered and disagree (erroring nodes are skipped); the tipset
consensus check aborts only when EVERY node errors, and otherwise
asserts `uniqueKeys == 1 && errs == 0`, which fails whenever any node
errors even if all answering nodes agree. -/
theorem chainChecks_rpc_error_handling :
    ∀ (allPast : Bool) (finH : Nat) (roots results : List (Option Nat))
      (audNodes : List AuditNodeRes) (blocks : List BlockPairRes)
      (heads : List (Option (Nat × Nat))),
      roots.any Option.isNone = true →
      audNodes.any (fun nd => !nd.finOk || !nd.tsOk) = true →
      false ∈ doHeadComparison allPast heads →
      allPast = true → 5 ≤ finH → 2 ≤ results.length →
      doStateRootComparison allPast finH roots = none ∧
      (doStateAudit allPast finH audNodes blocks).rootAssert = none ∧
      (doStateAudit allPast finH audNodes blocks).blockAsserts = [] ∧
      (∃ p q : Nat × Nat, p ∈ heads.filterMap id ∧ q ∈ heads.filterMap id ∧
        p.1 = q.1 ∧ p.2 ≠ q.2) ∧
      doTipsetConsensus allPast finH results =
        (if results.all Option.isNone = true then none
         else some (decide (distinctCount (results.filterMap id) = 1) &&
                    decide ((results.filter Option.isNone).length = 0))) := by
  intro allPast finH roots results audNodes blocks heads
  intro hroots haud hhead hpast hfin hlen
  subst hpast
  have hnot5 : ¬ finH < 5 := by omega
  have hnl : ¬ results.length < 2 := by omega
  have hsrc : doStateRootComparison true finH roots = none := by
    rw [doStateRootComparison]
    by_cases h1 : roots.length < 2
    · rw [if_pos h1]
    · rw [if_neg h1, if_neg (by decide : ¬ (!true) = true)]
      by_cases h3 : finH < 5
      · rw [if_pos h3]
      · rw [if_neg h3, if_pos hroots]
  have haudit : doStateAudit true finH audNodes blocks = ⟨none, []⟩ := by
    rw [doStateAudit]
    by_cases h1 : audNodes.length < 2
    · rw [if_pos h1]
    · rw [if_neg h1, if_neg (by decide : ¬ (!true) = true)]
      by_cases h3 : finH < 5
      · rw [if_pos h3]
      · rw [if_neg h3, if_pos haud]
  refine ⟨hsrc, ?_, ?_, headComparison_false_implies_disagreement true heads hhead, ?_⟩
  · rw [haudit]
  · rw [haudit]
  · rw [doTipsetConsensus, if_neg hnl, if_neg (by decide : ¬ (!true) = true),
      if_neg hnot5]
    by_cases hall : results.all Option.isNone = true
    · have heq : (results.filter Option.isNone).length = results.length :=
        (filter_isNone_length_eq_iff results).mpr hall
      rw [if_pos heq, if_pos hall]
    · have hne : ¬ ((results.filter Option.isNone).length = results.length) :=
        fun hc => hall ((filter_isNone_length_eq_iff results).mp hc)
      rw [if_neg hne, if_neg hall]

/-- Witness inputs for the C1 amended theorem. -/
def auditWitnessNodes : List AuditNodeRes := [⟨false, true, 0⟩]

/-- Witness inputs for the C1 amended theorem. -/
def headWitnessHeads : List (Option (Nat × Nat)) := [some (2, 1), some (2, 2)]

/-- Witness for C1 as amended. -/
theorem chainChecks_rpc_error_handling_witness :
    ([none, some 0] : List (Option Nat)).any Option.isNone = true ∧
    auditWitnessNodes.any (fun nd => !nd.finOk || !nd.tsOk) = true ∧
    false ∈ doHeadComparison true headWitnessHeads ∧
    (doStateRootComparison true 10 [none, some 0] = none ∧
      (doStateAudit true 10 auditWitnessNodes []).rootAssert = none ∧
      (doStateAudit true 10 auditWitnessNodes []).blockAsserts = [] ∧
      (∃ p q : Nat × Nat, p ∈ headWitnessHeads.filterMap id ∧
        q ∈ headWitnessHeads.filterMap id ∧ p.1 = q.1 ∧ p.2 ≠ q.2) ∧
      doTipsetConsensus true 10 [some 1, some 1] =
        (if ([some 1, some 1] : List (Option Nat)).all Option.isNone = true then none
         else some (decide (distinctCount
             (([some 1, some 1] : List (Option Nat)).filterMap id) = 1) &&
           decide ((([some 1, some 1] : List (Option Nat)).filter
             Option.isNone).length = 0)))) :=
  ⟨by decide, by decide, by decide,
   chainChecks_rpc_error_handling true 10 [none, some 0] [some 1, some 1]
     auditWitnessNodes [] headWitnessHeads
     (by decide) (by decide) (by decide) rfl (by decide) (by decide)⟩

end Workload

namespace Workload

/-- Copies of `v` in `k` concatenated copies of `xs`. -/
theorem count_flatten_replicate (k : Nat) (xs : List Nat) (v : Nat) :
    ((List.replicate k xs).flatten).count v = k * xs.count v := by
  induction k with
  | zero => simp
  | succ n ih =>
    simp only [List.replicate_succ, List.flatten_cons, List.count_append, ih,
      Nat.succ_mul]
    omega

/-- Copies of `v` in the stress-engine deck: the sum of `toNat`-clamped
weights of the actions named `v`. -/
theorem count_stressDeck (actions : List (Nat × Int)) (v : Nat) :
    (stressDeck actions).count v =
      (actions.map fun a => if a.1 = v then a.2.toNat else 0).sum := by
  induction actions with
  | nil => simp [stressDeck]
  | cons a rest ih =>
    simp only [stressDeck, List.map_cons, List.flatten_cons, List.count_append,
      List.sum_cons] at *
    rw [ih, List.count_replicate]
    by_cases hv : a.1 = v
    · simp [hv]
    · simp [hv, Ne.symm hv]

/-- Copies of `v` in the fuzzer deck: per category, the clamped weight
times the count of `v` inside the category (0 for skipped categories). -/
theorem count_fuzzerDeck (cats : List (Int × List Nat)) (v : Nat) :
    (fuzzerDeck cats).count v =
      (cats.map fun c =>
        if c.1 ≤ 0 ∨ c.2.isEmpty then 0 else c.1.toNat * c.2.count v).sum := by
  induction cats with
  | nil => simp [fuzzerDeck]
  | cons c rest ih =>
    simp only [fuzzerDeck, List.map_cons, List.flatten_cons, List.count_append,
      List.sum_cons] at *
    rw [ih]
    by_cases hc : c.1 ≤ 0 ∨ c.2 = []
    · simp [hc]
    · simp [hc, count_flatten_replicate]

/-- No copies of `v` in a stress deck built from actions none of which
is named `v`. -/
theorem stress_weight_sum_zero (l : List (Nat × Int)) (v : Nat)
    (hv : v ∉ l.map Prod.fst) :
    (l.map fun a => if a.1 = v then a.2.toNat else 0).sum = 0 := by
  induction l with
  | nil => simp
  | cons a rest ih =>
    simp only [List.map_cons, List.mem_cons] at hv
    push_neg at hv
    have hne : a.1 ≠ v := fun hc => hv.1 hc.symm
    simp [hne, ih hv.2]

/-- No copies of `v` in a fuzzer deck built from categories none of
which contains `v`. -/
theorem fuzzer_weight_sum_zero (l : List (Int × List Nat)) (v : Nat)
    (hv : v ∉ (l.map Prod.snd).flatten) :
    (l.map fun c =>
      if c.1 ≤ 0 ∨ c.2.isEmpty then 0 else c.1.toNat * c.2.count v).sum = 0 := by
  induction l with
  | nil => simp
  | cons c rest ih =>
    simp only [List.map_cons, List.flatten_cons, List.mem_append] at hv
    push_neg at hv
    have hcount : c.2.count v = 0 := by
      rw [List.count_eq_zero]
      exact hv.1
    simp only [List.map_cons, List.sum_cons, hcount, Nat.mul_zero, ite_self,
      ih hv.2, Nat.add_zero]

/-- Claim C7: in both executables a vector configured with weight `W`
contributes exactly `W` copies of its deck entry (`Int.toNat` clamps
non-positive weights to zero copies), and an empty final deck is a
fatal startup condition (`checkDeck` refuses it) before the main loop
runs. -/
theorem deck_weights_and_empty_fatal :
    ∀ (preA postA : List (Nat × Int)) (v : Nat) (w : Int)
      (pre post : List (Int × List Nat)) (wc : Int) (attacks : List Nat)
      (d : List Nat),
      v ∉ preA.map Prod.fst → v ∉ postA.map Prod.fst →
      attacks.count v = 1 →
      v ∉ (pre.map Prod.snd).flatten → v ∉ (post.map Prod.snd).flatten →
      (stressDeck (preA ++ (v, w) :: postA)).count v = w.toNat ∧
      (fuzzerDeck (pre ++ (wc, attacks) :: post)).count v = wc.toNat ∧
      (checkDeck d = none ↔ d = []) := by
  intro preA postA v w pre post wc attacks d hpreA hpostA hcount hpre hpost
  refine ⟨?_, ?_, ?_⟩
  · rw [count_stressDeck, List.map_append, List.sum_append, List.map_cons,
      List.sum_cons, stress_weight_sum_zero preA v hpreA,
      stress_weight_sum_zero postA v hpostA]
    simp
  · rw [count_fuzzerDeck, List.map_append, List.sum_append, List.map_cons,
      List.sum_cons, fuzzer_weight_sum_zero pre v hpre,
      fuzzer_weight_sum_zero post v hpost]
    have hne : ¬ attacks.isEmpty := by
      intro hc
      rw [List.isEmpty_iff.mp hc] at hcount
      simp at hcount
    by_cases hwc : wc ≤ 0
    · have : wc.toNat = 0 := Int.toNat_of_nonpos hwc
      simp [hwc, this]
    · simp [hwc, hne, hcount]
  · constructor
    · intro hc
      by_cases hd : d.isEmpty
      · exact List.isEmpty_iff.mp hd
      · rw [checkDeck, if_neg (by simpa using hd)] at hc
        cases hc
    · intro hc
      subst hc
      rfl

/-- Witness for C7. -/
theorem deck_weights_and_empty_fatal_witness :
    (0 : Nat) ∉ ([] : List (Nat × Int)).map Prod.fst ∧
    (0 : Nat) ∉ ([(1, (2 : Int))] : List (Nat × Int)).map Prod.fst ∧
    ([0] : List Nat).count 0 = 1 ∧
    (0 : Nat) ∉ (([] : List (Int × List Nat)).map Prod.snd).flatten ∧
    (0 : Nat) ∉ (([((5 : Int), [9])] : List (Int × List Nat)).map Prod.snd).flatten ∧
    ((stressDeck ([] ++ (0, (3 : Int)) :: [(1, (2 : Int))])).count 0 = (3 : Int).toNat ∧
      (fuzzerDeck ([] ++ ((2 : Int), [0]) :: [((5 : Int), [9])])).count 0 = (2 : Int).toNat ∧
      (checkDeck [] = none ↔ ([] : List Nat) = [])) :=
  ⟨by decide, by decide, by decide, by decide, by decide,
   deck_weights_and_empty_fatal [] [(1, 2)] 0 3 [] [(5, [9])] 2 [0] []
     (by decide) (by decide) (by decide) (by decide) (by decide)⟩

end Workload
